import Mathlib

/-!
Shallow embedding of the pgreplicaproxy core (server status oracle, backend
health probe, backend key registry, and the startup-phase protocol handler)
together with proofs of the specification claims about them.

The Go sources embedded here are `receiver.go`, `keydatastore.go`, and the
oracle/monitor file (`serverStatusOracle`, `monitorBackend`, `addToRing`,
`removeFromRing`).  Go's `container/ring` with its moving cursor is modelled
as a `List`, whose head is the element at the cursor and whose order is the
forward traversal order of the ring starting at the cursor.
-/

namespace PgReplicaProxy

/-- A backend identifier: the DSN string of a backend server. -/
abbrev BackendId := String

/-- `addToRing(r, s)` from the source: a fresh one-element ring `n` holding
`s` is linked in front of the current cursor with `n.Link(r)`, and `n` is
returned, so the new element becomes the cursor and the old cursor follows
it.  In the list model this is exactly `cons`. -/
def addToRing (r : List BackendId) (s : BackendId) : List BackendId :=
  s :: r

/-- `removeFromRing(r, s)` from the source: `r.Do` visits the ring forward
from the cursor, and every value other than `s` is pushed with `addToRing`
onto an initially empty ring, which is returned. -/
def removeFromRing (r : List BackendId) (s : BackendId) : List BackendId :=
  r.foldl (fun newRing v => if v ≠ s then addToRing newRing v else newRing) []

/-- `ring.Next()`: the cursor advances one slot forward.  In the list model
the head moves to the back. -/
def ringNext : List BackendId → List BackendId
  | [] => []
  | x :: xs => xs ++ [x]

/-- The backend status constants of the source
(`StatusUnknown .. StatusReplica`). -/
inductive BackendStatus
  | unknown
  | down
  | broken
  | master
  | replica
deriving DecidableEq, Repr

/-- A `serverStatusUpdate` message: a backend together with its newly
probed status. -/
structure ServerStatusUpdate where
  status : BackendStatus
  backend : BackendId
deriving DecidableEq, Repr

/-- The state owned by `serverStatusOracle`: the optional master and the
replica ring (cursor at the list head). -/
structure ClusterView where
  master : Option BackendId
  replicas : List BackendId
deriving DecidableEq, Repr

/-- The empty initial view of `serverStatusOracle`
(`masterServer = nil`, `replicaServers = ring.New(0)`). -/
def initialClusterView : ClusterView :=
  { master := none, replicas := [] }

/-- The `statusUpdate` case of the oracle's select loop. -/
def applyStatus (v : ClusterView) (u : ServerStatusUpdate) : ClusterView :=
  if u.status = .master then
    { master := some u.backend
      replicas := removeFromRing v.replicas u.backend }
  else if u.status = .replica then
    { master := if v.master = some u.backend then none else v.master
      replicas := addToRing (removeFromRing v.replicas u.backend) u.backend }
  else
    { master := if v.master = some u.backend then none else v.master
      replicas := removeFromRing v.replicas u.backend }

/-- The `masterRequest` case of the oracle's select loop: reply with
`masterServer`; no state changes. -/
def requestWriter (v : ClusterView) : Option BackendId × ClusterView :=
  (v.master, v)

/-- The `replicaRequest` case of the oracle's select loop: an empty ring
replies `nil`; otherwise the ring cursor advances one step and the value at
the new cursor is replied. -/
def requestReader (v : ClusterView) : Option BackendId × ClusterView :=
  if v.replicas.isEmpty then
    (none, v)
  else
    let r := ringNext v.replicas
    (r.head?, { v with replicas := r })

/-- `requestReader` iterated: the list of replies to successive reader
requests with no intervening status events. -/
def readerReplies (v : ClusterView) : Nat → List (Option BackendId)
  | 0 => []
  | n + 1 =>
    let (reply, v') := requestReader v
    reply :: readerReplies v' n

/-- The invariant the oracle's cluster view maintains: a set master is never
in the replica ring, and the ring holds each backend at most once. -/
def oracleInvariant (v : ClusterView) : Prop :=
  (∀ m, v.master = some m → m ∉ v.replicas) ∧ v.replicas.Nodup

/-! ### The backend key registry (`keydatastore.go`) -/

/-- A `backendKeyDataMessage`: the (processId, secretKey) pair, both signed
32-bit integers on the wire. -/
structure BackendKeyData where
  processId : Int
  secretKey : Int
deriving DecidableEq, Repr

/-- The map owned by `manageBackendKeyDataStorage`
(`map[backendKeyDataMessage]string`), modelled by its lookup function. -/
abbrev KeyStore := BackendKeyData → Option BackendId

/-- The three request kinds served by `manageBackendKeyDataStorage`. -/
inductive KeyStoreMsg
  | registerKey (key : BackendKeyData) (backend : BackendId)
  | deregisterKey (key : BackendKeyData)
  | getKey (key : BackendKeyData)

/-- One iteration of the `manageBackendKeyDataStorage` select loop: the new
store, and the reply sent on `returnChan` when the message is a lookup. -/
def manageBackendKeyDataStep (store : KeyStore) :
    KeyStoreMsg → KeyStore × Option (Option BackendId)
  | .registerKey k b => (fun k' => if k' = k then some b else store k', none)
  | .deregisterKey k => (fun k' => if k' = k then none else store k', none)
  | .getKey k => (store, some (store k))

/-! ### The backend health probe (`monitorBackend`) -/

/-- One iteration of the `monitorBackend` loop, as a function of the
iteration's I/O outcomes.  `openOk` and `queryOk` are whether `sql.Open` and
`db.Query` succeed; `scans` holds, for each row produced by `rows.Next()`,
either the scanned boolean (`some b`) or `none` when `rows.Scan` fails;
`rowsErr` is whether `rows.Err()` reports an error.  The result is the
updated `status` variable and the statuses emitted on
`serverStatusUpdateChannel` during this iteration, in order (every emitted
event carries this probe's fixed backend id).

Mirrors the source exactly, including that the `continue` after a failed
`rows.Scan` continues the inner `for rows.Next()` loop only, so control
still falls through to the `rows.Err()` check and the
`inRecovery` classification afterwards, with `inRecovery` keeping its
zero value `false` if no row was scanned successfully. -/
def monitorBackendIteration (status : BackendStatus) (openOk queryOk : Bool)
    (scans : List (Option Bool)) (rowsErr : Bool) :
    BackendStatus × List BackendStatus :=
  if !openOk then
    if status ≠ .down then (.down, [.down]) else (status, [])
  else if !queryOk then
    if status ≠ .down then (.down, [.down]) else (status, [])
  else
    let scanned : BackendStatus × List BackendStatus × Bool :=
      scans.foldl
        (fun acc scan =>
          let (st, emits, inRecovery) := acc
          match scan with
          | some b => (st, emits, b)
          | none =>
            if st ≠ .broken then (.broken, emits ++ [.broken], inRecovery)
            else (st, emits, inRecovery))
        (status, [], false)
    let (st, emits, inRecovery) := scanned
    if rowsErr then
      if st ≠ .broken then (.broken, emits ++ [.broken]) else (st, emits)
    else if inRecovery then
      if st ≠ .replica then (.replica, emits ++ [.replica]) else (st, emits)
    else
      if st ≠ .master then (.master, emits ++ [.master]) else (st, emits)

/-! ### Wire-level model (`receiver.go`)

Byte streams are lists of naturals below 256.  Signed 32-bit integers are
read and written big-endian exactly as `encoding/binary` does with `int32`:
four bytes are combined to an unsigned value and interpreted in two's
complement; writing serializes the value modulo `2^32`. -/

/-- A byte stream. -/
abbrev Bytes := List Nat

/-- The bytes of an ASCII string literal used by the source. -/
def strBytes (s : String) : Bytes :=
  s.data.map Char.toNat

/-- Two's-complement interpretation of an unsigned value as `int32`. -/
def toInt32 (u : Nat) : Int :=
  if u % 2 ^ 32 < 2 ^ 31 then ((u % 2 ^ 32 : Nat) : Int)
  else ((u % 2 ^ 32 : Nat) : Int) - 2 ^ 32

/-- The `int32` value carried by four big-endian wire bytes encoding `n`
(reduction of an arbitrary integer to signed 32-bit range). -/
def int32val (n : Int) : Int :=
  toInt32 (n % (2 ^ 32 : Int)).toNat

/-- `binary.Write(w, binary.BigEndian, int32(n))`: the four big-endian
bytes written. -/
def encInt32 (n : Int) : Bytes :=
  let u := (n % (2 ^ 32 : Int)).toNat
  [u / 2 ^ 24 % 256, u / 2 ^ 16 % 256, u / 2 ^ 8 % 256, u % 256]

/-- `binary.Read(r, binary.BigEndian, &x)` for an `int32`: consume four
bytes (error if fewer are available) and decode big-endian two's
complement. -/
def readInt32 : Bytes → Option (Int × Bytes)
  | b0 :: b1 :: b2 :: b3 :: rest =>
    some (toInt32 (b0 * 2 ^ 24 + b1 * 2 ^ 16 + b2 * 2 ^ 8 + b3), rest)
  | _ => none

/-- The body of the ErrorResponse built by `sendError`: the `'S' "ERROR"`,
`'C' "08000"` and `'M' <message>` fields, each NUL-terminated, followed by
the terminating zero byte. -/
def errorResponseBody (msg : Bytes) : Bytes :=
  strBytes "S" ++ strBytes "ERROR" ++ [0] ++
  strBytes "C" ++ strBytes "08000" ++ [0] ++
  strBytes "M" ++ msg ++ [0] ++ [0]

/-- All bytes written to the client by `sendError`: the `'E'` type byte, the
big-endian length including the length field itself, and the body. -/
def sendErrorBytes (msg : Bytes) : Bytes :=
  strBytes "E" ++ encInt32 ((errorResponseBody msg).length + 4) ++
  errorResponseBody msg

/-- `bytes.IndexByte(data, 0)` followed by the split the parsing loop
performs: `none` models index `-1` (no NUL present); otherwise the bytes
before the first NUL and the bytes after it. -/
def splitAtNul : Bytes → Option (Bytes × Bytes)
  | [] => none
  | b :: rest =>
    if b = 0 then some ([], rest)
    else (splitAtNul rest).map (fun p => (b :: p.1, p.2))

theorem splitAtNul_length {l k r : Bytes} (h : splitAtNul l = some (k, r)) :
    r.length < l.length := by
  induction l generalizing k r with
  | nil => simp [splitAtNul] at h
  | cons b rest ih =>
    simp only [splitAtNul] at h
    split at h
    · cases h
      simp
    · cases hs : splitAtNul rest with
      | none => simp [hs] at h
      | some p =>
        simp [hs] at h
        have := ih (show splitAtNul rest = some (p.1, p.2) from by simp [hs])
        obtain ⟨h1, h2⟩ := h
        subst h2
        simp
        omega

/-- The parameter-parsing loop of `readStartupMessageInternal`: NUL-split a
key (missing NUL is a malformed packet, an empty key ends the loop), then a
value, and continue.  The pairs are returned in arrival order; the Go map
the source builds from them is `goMap` below. -/
def parseParams (data : Bytes) : Option (List (Bytes × Bytes)) :=
  match h : splitAtNul data with
  | none => none
  | some (key, rest) =>
    if key = [] then some []
    else
      match h2 : splitAtNul rest with
      | none => none
      | some (value, rest2) =>
        (parseParams rest2).map (fun ps => (key, value) :: ps)
termination_by data.length
decreasing_by
  exact Nat.lt_trans (splitAtNul_length h2) (splitAtNul_length h)

/-- The environment a connection handler interacts with: the registry
snapshot consulted by `getBackendForBackendKeyData` and whether `net.Dial`
to a given backend succeeds. -/
structure NetEnv where
  lookup : BackendKeyData → Option BackendId
  dialOk : BackendId → Bool

/-- The value `readStartupMessageInternal` produces (or the way it dies). -/
inductive StartupResult
  /-- `make([]byte, startupMessageSize-4)` was reached with
  `startupMessageSize < 4`, so the slice length is negative and the
  runtime panics. -/
  | panicked
  /-- A `binary.Read`/`io.ReadFull` failure; the error is returned. -/
  | readError
  /-- The `startupMessageSize < 0 || > 8096` guard fired
  (`startupPacketSizeInvalid`). -/
  | sizeInvalid
  /-- `unsupportedProtocolVersion`. -/
  | unsupportedProtocol
  /-- `incorrectlyFormattedPacket` (missing NUL). -/
  | malformed
  /-- The CancelRequest path returned `(nil, nil)`. -/
  | cancelHandled
  /-- The parsed startup parameters, as (key, value) pairs in arrival
  order. -/
  | params (ps : List (Bytes × Bytes))
deriving DecidableEq, Repr

/-- Everything observable about one run of `readStartupMessageInternal`:
its result, the bytes written to the client connection (`'N'` replies and
ErrorResponses), and the backend dialed plus bytes written to it on the
CancelRequest path. -/
structure StartupOut where
  result : StartupResult
  clientOut : Bytes
  cancelDial : Option BackendId
  cancelWrite : Bytes
deriving DecidableEq, Repr

/-- The body of `readStartupMessageInternal(conn, allowRecursion)` over an
input byte stream.  `restart` stands for the recursive call
`readStartupMessageInternal(conn, false)` taken on the SSLRequest branch;
it is invoked only when `allowRecursion` is true. -/
def readStartupMessageStep (env : NetEnv) (allowRecursion : Bool)
    (restart : Bytes → StartupOut) (input : Bytes) : StartupOut :=
  match readInt32 input with
  | none => ⟨.readError, [], none, []⟩
  | some (startupMessageSize, rest) =>
    if startupMessageSize < 0 ∨ startupMessageSize > 8096 then
      ⟨.sizeInvalid, sendErrorBytes (strBytes "Startup packet size invalid"),
        none, []⟩
    else if startupMessageSize < 4 then
      -- make([]byte, startupMessageSize-4) with a negative length: panic
      ⟨.panicked, [], none, []⟩
    else
      let bodyLen := (startupMessageSize - 4).toNat
      if rest.length < bodyLen then
        ⟨.readError, sendErrorBytes (strBytes "Socket read error"), none, []⟩
      else
        let body := rest.take bodyLen
        let remaining := rest.drop bodyLen
        match readInt32 body with
        | none =>
          ⟨.readError, sendErrorBytes (strBytes "Socket read error"), none, []⟩
        | some (protocolVersionNumber, bodyRest) =>
          if protocolVersionNumber = 80877103 ∧ allowRecursion = true then
            let out := restart remaining
            { out with clientOut := strBytes "N" ++ out.clientOut }
          else if protocolVersionNumber = 80877102 then
            match readInt32 bodyRest with
            | none => ⟨.readError, [], none, []⟩
            | some (processId, r2) =>
              match readInt32 r2 with
              | none => ⟨.readError, [], none, []⟩
              | some (secretKey, _) =>
                match env.lookup ⟨processId, secretKey⟩ with
                | none => ⟨.cancelHandled, [], none, []⟩
                | some backend =>
                  if env.dialOk backend then
                    ⟨.cancelHandled, [], some backend,
                      encInt32 startupMessageSize ++
                      encInt32 protocolVersionNumber ++
                      encInt32 processId ++ encInt32 secretKey⟩
                  else
                    ⟨.cancelHandled, [], some backend, []⟩
          else if protocolVersionNumber ≠ 196608 then
            ⟨.unsupportedProtocol,
              sendErrorBytes (strBytes "Unsupported protocol version"),
              none, []⟩
          else
            match parseParams bodyRest with
            | none =>
              ⟨.malformed, sendErrorBytes (strBytes "Malformed startup packet"),
                none, []⟩
            | some ps => ⟨.params ps, [], none, []⟩

/-- `readStartupMessageInternal`: `allowRecursion` is modelled as the
number of SSLRequest restarts still permitted (`true` is `1`, and the
restarted read runs with `false`, i.e. `0`). -/
def readStartupMessageInternal (env : NetEnv) : Nat → Bytes → StartupOut
  | 0, input =>
    readStartupMessageStep env false (fun _ => ⟨.readError, [], none, []⟩) input
  | sslFuel + 1, input =>
    readStartupMessageStep env true (readStartupMessageInternal env sslFuel)
      input

/-- `readStartupMessage(conn)`: the internal reader with
`allowRecursion = true` (one SSLRequest restart allowed). -/
def readStartupMessage (env : NetEnv) (input : Bytes) : StartupOut :=
  readStartupMessageInternal env 1 input

/-! ### `handleIncomingConnection`: routing and startup replay -/

/-- The Go map `startupParameters` built by the parsing loop: successive
assignments `startupParameters[key] = value` over the pairs in arrival
order, starting from the empty map (duplicate keys: last one wins). -/
def goMap (ps : List (Bytes × Bytes)) : Bytes → Option Bytes :=
  ps.foldl (fun m p => fun k => if k = p.1 then some p.2 else m k)
    (fun _ => none)

/-- A Go map update `m[k] = v`, as performed by the `database` rewrite. -/
def mapSet (m : Bytes → Option Bytes) (k v : Bytes) : Bytes → Option Bytes :=
  fun k' => if k' = k then some v else m k'

/-- The byte string of the `_replica` suffix. -/
def replicaSuffix : Bytes := strBytes "_replica"

/-- Outcome of the routing-classification step of
`handleIncomingConnection` (lines 174-189). -/
inductive RouteResult
  /-- Neither `database` nor `user` present:
  `sendError "Missing database or user parameter"` and return. -/
  | missingDbUser
  /-- `wantReplica` and the possibly rewritten parameter map. -/
  | route (wantReplica : Bool) (m : Bytes → Option Bytes)

/-- The routing-classification step: pick `dbName` from `database`, else
`user`, else fail; when `dbName` ends in `_replica`, set `wantReplica` and
rewrite `startupParameters["database"] = dbName[:len(dbName)-8]`. -/
def classifyStartup (m : Bytes → Option Bytes) : RouteResult :=
  let classify (dbName : Bytes) : RouteResult :=
    if replicaSuffix.isSuffixOf dbName then
      .route true
        (mapSet m (strBytes "database") (dbName.take (dbName.length - 8)))
    else
      .route false m
  match m (strBytes "database") with
  | some dbName => classify dbName
  | none =>
    match m (strBytes "user") with
    | some dbName => classify dbName
    | none => .missingDbUser

/-- The parameter serialization of the replayed startup packet: the
`for key, value := range startupParameters` loop body, run over the keys in
the order `order` in which Go's `range` happens to enumerate the map. -/
def serializePairs (order : List Bytes) (m : Bytes → Option Bytes) : Bytes :=
  order.foldl (fun acc key => acc ++ key ++ [0] ++ (m key).getD [] ++ [0]) []

/-- The fresh startup packet written to the backend
(`newStartupMessageExcludingSize` plus its length prefix): big-endian total
length including itself, protocol version `196608`, the serialized
parameters, and the terminating zero byte. -/
def newStartupPacket (order : List Bytes) (m : Bytes → Option Bytes) : Bytes :=
  let excludingSize := encInt32 196608 ++ serializePairs order m ++ [0]
  encInt32 (excludingSize.length + 4) ++ excludingSize

/-- The key set of the Go map built from `ps`, in first-insertion order;
a `range` iteration visits exactly these keys, each once, in an order the
language leaves unspecified. -/
def goMapKeys (ps : List (Bytes × Bytes)) : List Bytes :=
  (ps.map Prod.fst).dedup

/-- `order` is a possible Go `range` enumeration of the map built from
`ps`: some permutation of its key set. -/
def validIterOrder (ps : List (Bytes × Bytes)) (order : List Bytes) : Prop :=
  order.Perm (goMapKeys ps)

/-- The startup packet serialized with the parameters in the exact order
the client sent them (what the order-preservation claim asserts the replay
equals). -/
def asSentStartupPacket (ps : List (Bytes × Bytes)) : Bytes :=
  let excludingSize := encInt32 196608 ++
    ps.foldl (fun acc p => acc ++ p.1 ++ [0] ++ p.2 ++ [0]) [] ++ [0]
  encInt32 (excludingSize.length + 4) ++ excludingSize

/-! ### `proxyPacketsUntilBackendKeyDataReceived` -/

/-- The way the backend-reply sniff loop ends. -/
inductive SniffResult
  /-- A read from the backend failed (stream exhausted). -/
  | ioError
  /-- The `messageSize < 0 || messageSize > 8096` guard fired
  (`startupPacketSizeInvalid`). -/
  | sizeInvalid
  /-- `make([]byte, messageSize-4)` with `messageSize < 4` on a non-`'K'`
  message: negative slice length, runtime panic. -/
  | panicked
  /-- A `'K'` message was observed and its (processId, secretKey) body
  parsed; the loop returns it. -/
  | gotKey (processId secretKey : Int)
deriving DecidableEq, Repr

/-- `proxyPacketsUntilBackendKeyDataReceived` over the backend's reply
stream: read a type byte and a big-endian `int32` length, reject lengths
outside `0..8096`, and either capture the 8-byte body of a `'K'` message
(read directly from the stream, regardless of the length field) or skip
`length - 4` body bytes and continue. -/
def proxyPacketsUntilBackendKeyData (stream : Bytes) : SniffResult :=
  match stream with
  | [] => .ioError
  | t :: rest =>
    match h : readInt32 rest with
    | none => .ioError
    | some (messageSize, r2) =>
      if messageSize < 0 ∨ messageSize > 8096 then .sizeInvalid
      else if t = 75 then
        match readInt32 r2 with
        | none => .ioError
        | some (processId, r3) =>
          match readInt32 r3 with
          | none => .ioError
          | some (secretKey, _) => .gotKey processId secretKey
      else if messageSize < 4 then .panicked
      else
        let bodyLen := (messageSize - 4).toNat
        if r2.length < bodyLen then .ioError
        else proxyPacketsUntilBackendKeyData (r2.drop bodyLen)
termination_by stream.length
decreasing_by
  rw [readInt32.eq_def] at h
  split at h
  · cases h
    simp [List.length_drop]
    omega
  · cases h

/-- The step of `handleIncomingConnection` after the sniff: the key passed
to `registerBackendKey`, registered only when the sniff succeeded. -/
def sniffRegisteredKey (stream : Bytes) : Option (Int × Int) :=
  match proxyPacketsUntilBackendKeyData stream with
  | .gotKey pid secret => some (pid, secret)
  | _ => none

/-- Whether `handleIncomingConnection` sends an ErrorResponse to the client
after the sniff phase (`sendError(conn, err.Error())` on a returned
error). -/
def sniffPhaseSendsError (stream : Bytes) : Bool :=
  match proxyPacketsUntilBackendKeyData stream with
  | .ioError => true
  | .sizeInvalid => true
  | _ => false

/-- A backend reply message as laid out on the wire: type byte, big-endian
length `body.length + 4`, body. -/
def encodeBackendMessage (t : Nat) (body : Bytes) : Bytes :=
  t :: encInt32 (body.length + 4) ++ body

/-- An environment with an empty registry in which every dial fails; the
paths exercised through it touch neither component. -/
def noNetEnv : NetEnv :=
  { lookup := fun _ => none, dialOk := fun _ => false }

/-! ### Lemmas about int32 encoding and decoding -/

theorem toInt32_emod (u : Nat) :
    (toInt32 u) % (2 ^ 32 : Int) = ((u % 2 ^ 32 : Nat) : Int) := by
  unfold toInt32
  split <;> omega

theorem emod_int32val (n : Int) :
    (int32val n) % (2 ^ 32 : Int) = n % (2 ^ 32 : Int) := by
  rw [int32val, toInt32_emod]
  omega

theorem int32val_eq_self {n : Int} (h0 : 0 ≤ n) (h1 : n < 2 ^ 31) :
    int32val n = n := by
  have hm : n % (2 ^ 32 : Int) = n := by omega
  rw [int32val, hm]
  unfold toInt32
  rw [if_pos (by omega)]
  omega

theorem encInt32_int32val (n : Int) : encInt32 (int32val n) = encInt32 n := by
  unfold encInt32
  rw [emod_int32val]

theorem readInt32_encInt32 (n : Int) (rest : Bytes) :
    readInt32 (encInt32 n ++ rest) = some (int32val n, rest) := by
  have hc : encInt32 n ++ rest =
      (n % (2 ^ 32 : Int)).toNat / 2 ^ 24 % 256 ::
      (n % (2 ^ 32 : Int)).toNat / 2 ^ 16 % 256 ::
      (n % (2 ^ 32 : Int)).toNat / 2 ^ 8 % 256 ::
      (n % (2 ^ 32 : Int)).toNat % 256 :: rest := by
    simp [encInt32]
  rw [hc]
  rw [int32val]
  have harg : (n % (2 ^ 32 : Int)).toNat / 2 ^ 24 % 256 * 2 ^ 24 +
      (n % (2 ^ 32 : Int)).toNat / 2 ^ 16 % 256 * 2 ^ 16 +
      (n % (2 ^ 32 : Int)).toNat / 2 ^ 8 % 256 * 2 ^ 8 +
      (n % (2 ^ 32 : Int)).toNat % 256 = (n % (2 ^ 32 : Int)).toNat := by
    omega
  simp only [readInt32, harg]

theorem encInt32_length (n : Int) : (encInt32 n).length = 4 := by
  simp [encInt32]

/-! ### Lemmas about the replica ring -/

theorem removeFromRing_eq (r : List BackendId) (s : BackendId) :
    removeFromRing r s = (r.filter (fun v => v ≠ s)).reverse := by
  have aux : ∀ (l acc : List BackendId),
      l.foldl (fun newRing v => if v ≠ s then addToRing newRing v else newRing)
        acc = (l.filter (fun v => v ≠ s)).reverse ++ acc := by
    intro l
    induction l with
    | nil => intro acc; simp
    | cons x xs ih =>
      intro acc
      rw [List.foldl_cons]
      by_cases hx : x = s
      · rw [if_neg (not_not_intro hx), ih acc]
        simp [List.filter_cons, hx]
      · rw [if_pos hx, ih (addToRing acc x)]
        simp [addToRing, List.filter_cons, hx]
  simpa [removeFromRing] using aux r []

theorem mem_removeFromRing {a : BackendId} (r : List BackendId)
    (s : BackendId) : a ∈ removeFromRing r s ↔ a ∈ r ∧ a ≠ s := by
  simp [removeFromRing_eq]

theorem nodup_removeFromRing {r : List BackendId} (s : BackendId)
    (h : r.Nodup) : (removeFromRing r s).Nodup := by
  simp only [removeFromRing_eq, List.nodup_reverse]
  exact h.filter _

theorem not_mem_removeFromRing_self (r : List BackendId) (s : BackendId) :
    s ∉ removeFromRing r s := by
  simp [mem_removeFromRing]

theorem inv_removeOnly (v : ClusterView) (id : BackendId)
    (h : oracleInvariant v) :
    oracleInvariant ⟨if v.master = some id then none else v.master,
      removeFromRing v.replicas id⟩ := by
  obtain ⟨hmaster, hnodup⟩ := h
  refine ⟨?_, nodup_removeFromRing _ hnodup⟩
  intro m hm
  by_cases hcur : v.master = some id
  · simp [hcur] at hm
  · rw [if_neg hcur] at hm
    intro hmem
    exact hmaster m hm ((mem_removeFromRing _ _).mp hmem).1

theorem inv_setMaster (v : ClusterView) (id : BackendId)
    (h : oracleInvariant v) :
    oracleInvariant ⟨some id, removeFromRing v.replicas id⟩ := by
  refine ⟨?_, nodup_removeFromRing _ h.2⟩
  intro m hm
  obtain rfl : id = m := by simpa using hm
  exact not_mem_removeFromRing_self _ _

theorem inv_setReplica (v : ClusterView) (id : BackendId)
    (h : oracleInvariant v) :
    oracleInvariant ⟨if v.master = some id then none else v.master,
      addToRing (removeFromRing v.replicas id) id⟩ := by
  obtain ⟨hmaster, hnodup⟩ := h
  constructor
  · intro m hm
    by_cases hcur : v.master = some id
    · simp [hcur] at hm
    · rw [if_neg hcur] at hm
      intro hmem
      simp only [addToRing, List.mem_cons, mem_removeFromRing] at hmem
      rcases hmem with rfl | ⟨hin, _⟩
      · exact hcur hm
      · exact hmaster m hm hin
  · simp only [addToRing, List.nodup_cons]
    exact ⟨not_mem_removeFromRing_self _ _, nodup_removeFromRing _ hnodup⟩

theorem applyStatus_invariant {v : ClusterView} (u : ServerStatusUpdate)
    (h : oracleInvariant v) : oracleInvariant (applyStatus v u) := by
  obtain ⟨st, id⟩ := u
  cases st with
  | unknown => exact inv_removeOnly v id h
  | down => exact inv_removeOnly v id h
  | broken => exact inv_removeOnly v id h
  | master => exact inv_setMaster v id h
  | replica => exact inv_setReplica v id h

theorem foldl_applyStatus_invariant (events : List ServerStatusUpdate)
    {v : ClusterView} (h : oracleInvariant v) :
    oracleInvariant (events.foldl applyStatus v) := by
  induction events generalizing v with
  | nil => exact h
  | cons e es ih => exact ih (applyStatus_invariant e h)

/-! ### Claim theorems for the oracle -/

/-- C3: starting from the empty cluster view, after any sequence of applied
status events the master, if set, is not present in the replicas ring, and
each backend appears in the ring at most once. -/
theorem clusterView_invariant (events : List ServerStatusUpdate) :
    (∀ m, (events.foldl applyStatus initialClusterView).master = some m →
      m ∉ (events.foldl applyStatus initialClusterView).replicas) ∧
    (events.foldl applyStatus initialClusterView).replicas.Nodup := by
  exact foldl_applyStatus_invariant events (by constructor <;> simp [initialClusterView])

/-- Witness for C3 at a concrete event sequence: after B1 goes master and
B2, B3 go replica, B1 is not in the ring and the ring has no duplicates. -/
theorem clusterView_invariant_witness :
    "B1" ∉ (([⟨.master, "B1"⟩, ⟨.replica, "B2"⟩, ⟨.replica, "B3"⟩] :
      List ServerStatusUpdate).foldl applyStatus initialClusterView).replicas ∧
    (([⟨.master, "B1"⟩, ⟨.replica, "B2"⟩, ⟨.replica, "B3"⟩] :
      List ServerStatusUpdate).foldl applyStatus initialClusterView).replicas.Nodup := by
  refine ⟨?_, (clusterView_invariant _).2⟩
  exact (clusterView_invariant
    [⟨.master, "B1"⟩, ⟨.replica, "B2"⟩, ⟨.replica, "B3"⟩]).1 "B1" (by rfl)

/-- C2: a reader request on an empty ring replies empty; on a nonempty ring
it advances the cursor one step and replies with the value at the new
cursor; on a two-replica ring two consecutive requests never reply the same
replica; and after the events (B1,Master), (B2,Replica), (B3,Replica) three
successive reader requests reply B2, B3, B2. -/
theorem requestReader_round_robin :
    (∀ v : ClusterView, v.replicas = [] → requestReader v = (none, v)) ∧
    (∀ v : ClusterView, v.replicas ≠ [] →
      requestReader v =
        ((ringNext v.replicas).head?,
          { v with replicas := ringNext v.replicas })) ∧
    (∀ (v : ClusterView) (a b : BackendId), v.replicas = [a, b] → a ≠ b →
      (requestReader v).1 ≠ (requestReader (requestReader v).2).1) ∧
    readerReplies
      (([⟨.master, "B1"⟩, ⟨.replica, "B2"⟩, ⟨.replica, "B3"⟩] :
        List ServerStatusUpdate).foldl applyStatus initialClusterView) 3 =
      [some "B2", some "B3", some "B2"] := by
  refine ⟨?_, ?_, ?_, ?_⟩
  · intro v h
    simp [requestReader, h]
  · intro v h
    simp [requestReader, List.isEmpty_iff, h]
  · intro v a b h hne
    have hfst : (requestReader v).1 = some b ∧
        (requestReader (requestReader v).2).1 = some a := by
      simp [requestReader, h, ringNext]
    rw [hfst.1, hfst.2]
    simp only [ne_eq, Option.some.injEq]
    exact fun hba => hne hba.symm
  · rfl

/-- Witness for C2: on the concrete view with ring [a, b] the two
consecutive reader replies differ. -/
theorem requestReader_round_robin_witness :
    (requestReader ⟨none, ["a", "b"]⟩).1 ≠
      (requestReader (requestReader ⟨none, ["a", "b"]⟩).2).1 :=
  requestReader_round_robin.2.2.1 ⟨none, ["a", "b"]⟩ "a" "b" rfl (by decide)

/-- C10: a writer request leaves the cluster view entirely unchanged, and a
reader request leaves the master and the multiset of ring members
unchanged, moving only the ring cursor. -/
theorem oracle_requests_frame (v : ClusterView) :
    (requestWriter v).2 = v ∧
    (requestWriter v).1 = v.master ∧
    (requestReader v).2.master = v.master ∧
    (requestReader v).2.replicas.Perm v.replicas := by
  refine ⟨rfl, rfl, ?_, ?_⟩
  · cases h : v.replicas with
    | nil => simp [requestReader, h]
    | cons x xs => simp [requestReader, h, ringNext]
  · cases h : v.replicas with
    | nil => simp [requestReader, h]
    | cons x xs =>
      simp only [requestReader, h, List.isEmpty_cons, ringNext]
      have hperm : List.Perm (xs ++ [x]) ([x] ++ xs) := List.perm_append_comm
      simpa using hperm

/-! ### Claim theorems for the registry -/

/-- C8: registering a key makes lookup return its backend (overwriting any
existing entry), deregistering it afterwards makes lookup return empty, and
deregistering an absent key leaves the store unchanged. -/
theorem registry_register_deregister_lookup (store : KeyStore)
    (k : BackendKeyData) (b : BackendId) :
    (manageBackendKeyDataStep
        (manageBackendKeyDataStep store (.registerKey k b)).1 (.getKey k)).2 =
      some (some b) ∧
    (manageBackendKeyDataStep
        (manageBackendKeyDataStep
          (manageBackendKeyDataStep store (.registerKey k b)).1
          (.deregisterKey k)).1 (.getKey k)).2 = some none ∧
    (store k = none →
      (manageBackendKeyDataStep store (.deregisterKey k)).1 = store) := by
  refine ⟨by simp [manageBackendKeyDataStep], by simp [manageBackendKeyDataStep], ?_⟩
  intro habsent
  funext k'
  simp only [manageBackendKeyDataStep]
  by_cases h : k' = k
  · simp [h, habsent]
  · simp [h]

/-- Witness for C8 at a concrete store, key and backend. -/
theorem registry_register_deregister_lookup_witness :
    (manageBackendKeyDataStep
        (manageBackendKeyDataStep (fun _ => none)
          (.registerKey ⟨4242, 287454020⟩ "B1")).1
        (.getKey ⟨4242, 287454020⟩)).2 = some (some "B1") ∧
    (manageBackendKeyDataStep
        (manageBackendKeyDataStep
          (manageBackendKeyDataStep (fun _ => none)
            (.registerKey ⟨4242, 287454020⟩ "B1")).1
          (.deregisterKey ⟨4242, 287454020⟩)).1
        (.getKey ⟨4242, 287454020⟩)).2 = some none ∧
    ((fun _ => none : KeyStore) ⟨4242, 287454020⟩ = none →
      (manageBackendKeyDataStep (fun _ => none)
        (.deregisterKey ⟨4242, 287454020⟩)).1 = (fun _ => none : KeyStore)) :=
  registry_register_deregister_lookup (fun _ => none) ⟨4242, 287454020⟩ "B1"

/-! ### Claim theorem for the probe loop -/

/-- C5 (code bug): in a probe iteration where opening and querying succeed,
one row arrives and its `rows.Scan` fails, and `rows.Err()` is nil, the
code emits (id, Broken) and then additionally (id, Master): the `continue`
after the failed scan only continues the inner row loop, so control falls
through to the classification with `inRecovery` still `false`.  The claim
that such an iteration emits only (id, Broken) is violated. -/
theorem monitorBackend_scan_failure_double_emit :
    monitorBackendIteration .unknown true true [none] false =
      (.master, [.broken, .master]) := by
  rfl

/-! ### Claim theorems for the startup reader -/

/-- C1 (code bug): a client that sends startup length 0 (wire bytes
`00 00 00 00`) passes the `0..8096` size guard, after which the handler
executes `make([]byte, startupMessageSize-4)` with length `-4` and the
runtime panics; no ErrorResponse is sent and no error is returned, so the
code crashes instead of handling the protocol violation (lengths 1..3
fail the same way). -/
theorem startup_length_zero_panics :
    readStartupMessage noNetEnv [0, 0, 0, 0] =
      { result := .panicked, clientOut := [], cancelDial := none,
        cancelWrite := [] } := by
  rfl

theorem readInt32_encInt32_nil (n : Int) :
    readInt32 (encInt32 n) = some (int32val n, []) := by
  simpa using readInt32_encInt32 n []

/-- C6: a well-formed CancelRequest (length 16, code 80877102, then
processId and secretKey): on a registry hit with a successful dial the
proxy dials the mapped backend and writes to it exactly the 16 bytes it
read — big-endian 16, 80877102, processId, secretKey; on a registry hit
whose dial fails it writes nothing; on a registry miss it dials nothing
and writes nothing; and in every one of these outcomes nothing at all (in
particular no ErrorResponse) is written back to the cancel-issuing
connection. -/
theorem cancelRequest_replay (env : NetEnv) (pid secret : Int)
    (b : BackendId) :
    (env.lookup ⟨int32val pid, int32val secret⟩ = some b →
      env.dialOk b = true →
      readStartupMessage env
          (encInt32 16 ++ encInt32 80877102 ++ encInt32 pid ++
            encInt32 secret) =
        { result := .cancelHandled, clientOut := [], cancelDial := some b,
          cancelWrite := encInt32 16 ++ encInt32 80877102 ++
            encInt32 pid ++ encInt32 secret }) ∧
    (env.lookup ⟨int32val pid, int32val secret⟩ = some b →
      env.dialOk b = false →
      readStartupMessage env
          (encInt32 16 ++ encInt32 80877102 ++ encInt32 pid ++
            encInt32 secret) =
        { result := .cancelHandled, clientOut := [], cancelDial := some b,
          cancelWrite := [] }) ∧
    (env.lookup ⟨int32val pid, int32val secret⟩ = none →
      readStartupMessage env
          (encInt32 16 ++ encInt32 80877102 ++ encInt32 pid ++
            encInt32 secret) =
        { result := .cancelHandled, clientOut := [], cancelDial := none,
          cancelWrite := [] }) := by
  have h16 : int32val 16 = 16 := by decide
  have hver : int32val 80877102 = 80877102 := by decide
  have hlen : (encInt32 (80877102 : Int) ++ (encInt32 pid ++
      encInt32 secret)).length = 12 := by
    simp [encInt32_length]
  have htake : (encInt32 (80877102 : Int) ++ (encInt32 pid ++
      encInt32 secret)).take 12 =
      encInt32 (80877102 : Int) ++ (encInt32 pid ++ encInt32 secret) :=
    List.take_of_length_le (by omega)
  have hdrop : (encInt32 (80877102 : Int) ++ (encInt32 pid ++
      encInt32 secret)).drop 12 = [] :=
    List.drop_eq_nil_of_le (by omega)
  have hcommon : ∀ k : Option BackendId,
      env.lookup ⟨int32val pid, int32val secret⟩ = k →
      readStartupMessage env
          (encInt32 16 ++ encInt32 80877102 ++ encInt32 pid ++
            encInt32 secret) =
        match k with
        | some backend =>
          if env.dialOk backend then
            ⟨.cancelHandled, [], some backend,
              encInt32 16 ++ encInt32 80877102 ++ encInt32 pid ++
                encInt32 secret⟩
          else ⟨.cancelHandled, [], some backend, []⟩
        | none => ⟨.cancelHandled, [], none, []⟩ := by
    intro k hk
    have h12 : ((16 : Int) - 4).toNat = 12 := by decide
    simp only [List.append_assoc]
    simp only [readStartupMessage, readStartupMessageInternal,
      readStartupMessageStep, readInt32_encInt32, readInt32_encInt32_nil,
      h16, hver, h12, hlen, htake, hdrop, hk, encInt32_int32val]
    norm_num
    cases k <;> rfl
  refine ⟨?_, ?_, ?_⟩
  · intro hlook hdial
    rw [hcommon _ hlook]
    simp [hdial]
  · intro hlook hdial
    rw [hcommon _ hlook]
    simp [hdial]
  · intro hlook
    exact hcommon _ hlook

/-- Witness for C6: the scenario-4 CancelRequest (4242, 0x11223344) against
a registry mapping it to B1 replays exactly the 16 read bytes to B1. -/
theorem cancelRequest_replay_witness :
    readStartupMessage
        ⟨fun k => if k = ⟨4242, 287454020⟩ then some "B1" else none,
          fun _ => true⟩
        (encInt32 16 ++ encInt32 80877102 ++ encInt32 4242 ++
          encInt32 287454020) =
      { result := .cancelHandled, clientOut := [], cancelDial := some "B1",
        cancelWrite := encInt32 16 ++ encInt32 80877102 ++ encInt32 4242 ++
          encInt32 287454020 } :=
  (cancelRequest_replay
      ⟨fun k => if k = ⟨4242, 287454020⟩ then some "B1" else none,
        fun _ => true⟩
      4242 287454020 "B1").1 (by decide) rfl

/-! ### Claim theorem for routing classification -/

/-- C7: the routing name is `params["database"]` if present, else
`params["user"]`, else the connection fails with missing-db-or-user; the
connection is classified `wantReplica` exactly when that name ends in the
8-byte suffix `_replica`, in which case `params["database"]` is rewritten
to the name with its last 8 bytes removed (even when the name came from
`"user"`); otherwise no parameter is rewritten. -/
theorem routing_classification (m : Bytes → Option Bytes) (n : Bytes) :
    (m (strBytes "database") = none → m (strBytes "user") = none →
      classifyStartup m = .missingDbUser) ∧
    ((m (strBytes "database") = some n ∨
        (m (strBytes "database") = none ∧ m (strBytes "user") = some n)) →
      (replicaSuffix.isSuffixOf n = true →
        classifyStartup m = .route true
          (mapSet m (strBytes "database") (n.take (n.length - 8)))) ∧
      (replicaSuffix.isSuffixOf n = false →
        classifyStartup m = .route false m)) := by
  constructor
  · intro hdb huser
    simp [classifyStartup, hdb, huser]
  · intro hn
    constructor <;> intro hs <;>
      rcases hn with hdb | ⟨hdb, huser⟩
    · simp [classifyStartup, hdb, hs]
    · simp [classifyStartup, hdb, huser, hs]
    · simp [classifyStartup, hdb, hs]
    · simp [classifyStartup, hdb, huser, hs]

/-- Witness for C7: a startup with only `user=app_replica` is classified
wantReplica, and the rewrite lands in the `database` key. -/
theorem routing_classification_witness :
    classifyStartup
        (fun k => if k = strBytes "user" then some (strBytes "app_replica")
          else none) =
      .route true
        (mapSet
          (fun k => if k = strBytes "user" then some (strBytes "app_replica")
            else none)
          (strBytes "database")
          ((strBytes "app_replica").take ((strBytes "app_replica").length - 8))) :=
  ((routing_classification _ (strBytes "app_replica")).2
    (Or.inr ⟨by decide, by decide⟩)).1 (by decide)

/-! ### Claim theorem for the BackendKeyData sniff -/

theorem int32val_of_repr {n : Int} (h0 : -(2 ^ 31) ≤ n) (h1 : n < 2 ^ 31) :
    int32val n = n := by
  unfold int32val toInt32
  split <;> omega

theorem sniff_skip (t : Nat) (body s : Bytes) (ht : ¬ t = 75)
    (hlen : body.length + 4 ≤ 8096) :
    proxyPacketsUntilBackendKeyData (encodeBackendMessage t body ++ s) =
      proxyPacketsUntilBackendKeyData s := by
  have hL : int32val ((body.length : Int) + 4) = (body.length : Int) + 4 :=
    int32val_eq_self (by omega) (by omega)
  have hread := readInt32_encInt32 ((body.length : Int) + 4) (body ++ s)
  rw [hL] at hread
  have hstream : encodeBackendMessage t body ++ s =
      t :: (encInt32 ((body.length : Int) + 4) ++ (body ++ s)) := by
    simp [encodeBackendMessage]
  rw [hstream]
  rw [proxyPacketsUntilBackendKeyData]
  split
  · rename_i hnone
    rw [hread] at hnone
    exact absurd hnone (by simp)
  · rename_i messageSize r2 hsome
    rw [hread] at hsome
    obtain ⟨hm, hr⟩ : (body.length : Int) + 4 = messageSize ∧ body ++ s = r2 := by
      simpa using hsome
    subst hm
    subst hr
    rw [if_neg (by omega), if_neg ht, if_neg (by omega)]
    have hbl : (((body.length : Int) + 4) - 4).toNat = body.length := by omega
    simp only [hbl]
    rw [if_neg (by simp)]
    rw [List.drop_left]

/-- C9: during the BackendKeyData sniff, a backend message whose 4-byte
length field decodes to a value below 0 or above 8096, arriving after any
run of well-formed non-'K' messages (so before any 'K' was observed), makes
`proxyPacketsUntilBackendKeyDataReceived` return the size error; the caller
then sends an ErrorResponse to the client and registers no BackendKey, even
though the wire protocol itself permits backend messages larger than
8096 bytes. -/
theorem sniff_bad_length_rejected (msgs : List (Nat × Bytes)) (t : Nat)
    (v : Int) (rest : Bytes)
    (hmsgs : ∀ p ∈ msgs, p.1 ≠ 75 ∧ p.2.length + 4 ≤ 8096)
    (h0 : -(2 ^ 31) ≤ v) (h1 : v < 2 ^ 31) (hbad : v < 0 ∨ v > 8096) :
    proxyPacketsUntilBackendKeyData
        ((msgs.map (fun p => encodeBackendMessage p.1 p.2)).flatten ++
          (t :: (encInt32 v ++ rest))) = .sizeInvalid ∧
    sniffRegisteredKey
        ((msgs.map (fun p => encodeBackendMessage p.1 p.2)).flatten ++
          (t :: (encInt32 v ++ rest))) = none ∧
    sniffPhaseSendsError
        ((msgs.map (fun p => encodeBackendMessage p.1 p.2)).flatten ++
          (t :: (encInt32 v ++ rest))) = true := by
  have hmain : proxyPacketsUntilBackendKeyData
      ((msgs.map (fun p => encodeBackendMessage p.1 p.2)).flatten ++
        (t :: (encInt32 v ++ rest))) = .sizeInvalid := by
    induction msgs with
    | nil =>
      simp only [List.map_nil, List.flatten_nil, List.nil_append]
      rw [proxyPacketsUntilBackendKeyData]
      have hread := readInt32_encInt32 v rest
      rw [int32val_of_repr h0 h1] at hread
      split
      · rename_i hnone
        rw [hread] at hnone
        exact absurd hnone (by simp)
      · rename_i messageSize r2 hsome
        rw [hread] at hsome
        obtain ⟨hm, hr⟩ : v = messageSize ∧ rest = r2 := by simpa using hsome
        subst hm
        subst hr
        rw [if_pos hbad]
    | cons p ps ih =>
      have hp := hmsgs p (List.mem_cons_self p ps)
      have hps : ∀ q ∈ ps, q.1 ≠ 75 ∧ q.2.length + 4 ≤ 8096 :=
        fun q hq => hmsgs q (List.mem_cons_of_mem p hq)
      simp only [List.map_cons, List.flatten_cons, List.append_assoc]
      rw [sniff_skip p.1 p.2 _ hp.1 hp.2]
      simpa [List.append_assoc] using ih hps
  refine ⟨hmain, ?_, ?_⟩
  · rw [sniffRegisteredKey, hmain]
  · rw [sniffPhaseSendsError, hmain]

/-- Witness for C9: after one well-formed 'R' message, a message whose
length field says 9000 aborts the sniff with the size error and nothing is
registered. -/
theorem sniff_bad_length_rejected_witness :
    proxyPacketsUntilBackendKeyData
        (([((82 : Nat), ([0] : Bytes))].map
            (fun p => encodeBackendMessage p.1 p.2)).flatten ++
          ((75 : Nat) :: (encInt32 9000 ++ []))) = .sizeInvalid ∧
    sniffRegisteredKey
        (([((82 : Nat), ([0] : Bytes))].map
            (fun p => encodeBackendMessage p.1 p.2)).flatten ++
          ((75 : Nat) :: (encInt32 9000 ++ []))) = none ∧
    sniffPhaseSendsError
        (([((82 : Nat), ([0] : Bytes))].map
            (fun p => encodeBackendMessage p.1 p.2)).flatten ++
          ((75 : Nat) :: (encInt32 9000 ++ []))) = true :=
  sniff_bad_length_rejected [((82 : Nat), ([0] : Bytes))] 75 9000 []
    (by decide) (by decide) (by decide) (by decide)

/-! ### Claim theorems for the replayed startup packet -/

theorem serializePairs_eq (order : List Bytes) (m : Bytes → Option Bytes) :
    serializePairs order m =
      (order.map (fun k => k ++ [0] ++ (m k).getD [] ++ [0])).flatten := by
  have aux : ∀ (l : List Bytes) (acc : Bytes),
      l.foldl (fun acc key => acc ++ key ++ [0] ++ (m key).getD [] ++ [0])
        acc =
        acc ++ (l.map (fun k => k ++ [0] ++ (m k).getD [] ++ [0])).flatten := by
    intro l
    induction l with
    | nil => intro acc; simp
    | cons k ks ih =>
      intro acc
      rw [List.foldl_cons, ih]
      simp [List.append_assoc]
  simpa [serializePairs] using aux order []

theorem splitAtNul_append (k t : Bytes) (hk : (0 : Nat) ∉ k) :
    splitAtNul (k ++ 0 :: t) = some (k, t) := by
  induction k with
  | nil => simp [splitAtNul]
  | cons b bs ih =>
    simp only [List.mem_cons, not_or] at hk
    have hb : ¬ b = 0 := fun hb0 => hk.1 (hb0 ▸ rfl)
    simp only [List.cons_append, splitAtNul, List.append_eq, if_neg hb,
      ih hk.2]
    rfl

theorem parseParams_serializePairs (order : List Bytes)
    (m : Bytes → Option Bytes)
    (h : ∀ k ∈ order, k ≠ [] ∧ (0 : Nat) ∉ k ∧ (0 : Nat) ∉ (m k).getD []) :
    parseParams (serializePairs order m ++ [0]) =
      some (order.map (fun k => (k, (m k).getD []))) := by
  rw [serializePairs_eq]
  induction order with
  | nil =>
    rw [parseParams]
    simp [splitAtNul]
  | cons k ks ih =>
    obtain ⟨hne, hk0, hv0⟩ := h k (List.mem_cons_self k ks)
    have hks : ∀ q ∈ ks, q ≠ [] ∧ (0 : Nat) ∉ q ∧ (0 : Nat) ∉ (m q).getD [] :=
      fun q hq => h q (List.mem_cons_of_mem k hq)
    have hsplit1 : ((k ++ [0] ++ (m k).getD [] ++ [0]) ++
          ((ks.map (fun q => q ++ [0] ++ (m q).getD [] ++ [0])).flatten ++ [0])) =
        k ++ 0 :: ((m k).getD [] ++ 0 ::
          ((ks.map (fun q => q ++ [0] ++ (m q).getD [] ++ [0])).flatten ++ [0])) := by
      simp [List.append_assoc]
    rw [List.map_cons, List.flatten_cons, List.append_assoc, hsplit1,
      parseParams]
    split
    · rename_i hnone
      rw [splitAtNul_append _ _ hk0] at hnone
      exact absurd hnone (by simp)
    · rename_i key rest heq
      rw [splitAtNul_append _ _ hk0] at heq
      obtain ⟨hkey, hrest⟩ : k = key ∧
          (m k).getD [] ++ 0 ::
            ((ks.map (fun q => q ++ [0] ++ (m q).getD [] ++ [0])).flatten ++
              [0]) = rest := by
        simpa using heq
      subst hkey
      subst hrest
      rw [if_neg hne]
      split
      · rename_i hnone2
        rw [splitAtNul_append _ _ hv0] at hnone2
        exact absurd hnone2 (by simp)
      · rename_i value rest2 heq2
        rw [splitAtNul_append _ _ hv0] at heq2
        obtain ⟨hval, hrest2⟩ : (m k).getD [] = value ∧
            (ks.map (fun q => q ++ [0] ++ (m q).getD [] ++ [0])).flatten ++
              [0] = rest2 := by
          simpa using heq2
        subst hval
        subst hrest2
        rw [ih hks]
        simp

/-- C4 counterexample: the client sends `user=u` then `database=app`; the
Go map over these two keys may legitimately be iterated `database` first,
and the packet serialized in that order differs from the packet serialized
in the as-sent order, so the replay does not preserve the as-sent
parameter order. -/
theorem startup_replay_order_counterexample :
    validIterOrder
        [(strBytes "user", strBytes "u"), (strBytes "database", strBytes "app")]
        [strBytes "database", strBytes "user"] ∧
    newStartupPacket [strBytes "database", strBytes "user"]
        (goMap
          [(strBytes "user", strBytes "u"),
            (strBytes "database", strBytes "app")]) ≠
      asSentStartupPacket
        [(strBytes "user", strBytes "u"),
          (strBytes "database", strBytes "app")] := by
  constructor
  · exact (by decide :
      ([strBytes "database", strBytes "user"]).Perm
        (goMapKeys
          [(strBytes "user", strBytes "u"),
            (strBytes "database", strBytes "app")]))
  · decide

/-- C4 (amended): for every parameter map and every order in which Go's
`range` may enumerate it, the replayed packet consists of the 4-byte
big-endian total length (including itself), the 4-byte big-endian protocol
version 196608, and the NUL-terminated key/value pairs followed by a final
NUL — in the map iteration order, which need not be the as-sent order.  In
particular the packet round-trips: read back as a startup message it
parses to exactly the serialized (key, value) pairs in that order. -/
theorem startup_replay_roundtrip (env : NetEnv) (order : List Bytes)
    (m : Bytes → Option Bytes)
    (h : ∀ k ∈ order, k ≠ [] ∧ (0 : Nat) ∉ k ∧ (0 : Nat) ∉ (m k).getD [])
    (hsize : (serializePairs order m).length + 9 ≤ 8096) :
    readStartupMessage env (newStartupPacket order m) =
      { result := .params (order.map (fun k => (k, (m k).getD []))),
        clientOut := [], cancelDial := none, cancelWrite := [] } := by
  have hlenE : (encInt32 196608 ++ (serializePairs order m ++ [0])).length =
      (serializePairs order m).length + 5 := by
    simp [encInt32_length]
    omega
  have hL : int32val
      (((encInt32 196608 ++ (serializePairs order m ++ [0])).length : Int) + 4) =
      ((encInt32 196608 ++ (serializePairs order m ++ [0])).length : Int) + 4 :=
    int32val_eq_self (by omega) (by omega)
  have hread := readInt32_encInt32
    (((encInt32 196608 ++ (serializePairs order m ++ [0])).length : Int) + 4)
    (encInt32 196608 ++ (serializePairs order m ++ [0]))
  rw [hL] at hread
  have hver : int32val 196608 = 196608 := by decide
  have hread2 := readInt32_encInt32 196608 (serializePairs order m ++ [0])
  rw [hver] at hread2
  have hc1 : (((encInt32 196608 ++ (serializePairs order m ++ [0])).length : Int)
      + 4 < 0 ∨
      ((encInt32 196608 ++ (serializePairs order m ++ [0])).length : Int) + 4 >
        8096) = False :=
    eq_false (by omega)
  have hc2 : (((encInt32 196608 ++ (serializePairs order m ++ [0])).length : Int)
      + 4 < 4) = False :=
    eq_false (by omega)
  have hbl : ((((encInt32 196608 ++ (serializePairs order m ++ [0])).length : Int)
      + 4) - 4).toNat =
      (encInt32 196608 ++ (serializePairs order m ++ [0])).length := by
    omega
  have htake : (encInt32 196608 ++ (serializePairs order m ++ [0])).take
      (encInt32 196608 ++ (serializePairs order m ++ [0])).length =
      encInt32 196608 ++ (serializePairs order m ++ [0]) :=
    List.take_of_length_le (by omega)
  have hc3 : ((encInt32 196608 ++ (serializePairs order m ++ [0])).length <
      (encInt32 196608 ++ (serializePairs order m ++ [0])).length) = False :=
    eq_false (by omega)
  have hd1 : (((196608 : Int) = 80877103) = False) := eq_false (by norm_num)
  have hd2 : (((196608 : Int) = 80877102) = False) := eq_false (by norm_num)
  have hd3 : (((196608 : Int) ≠ 196608) = False) := eq_false (by norm_num)
  have hper := parseParams_serializePairs order m h
  simp only [newStartupPacket, List.append_assoc, readStartupMessage,
    readStartupMessageInternal, readStartupMessageStep, hread, hread2, hc1,
    hc2, hbl, htake, hc3, hd1, hd2, hd3, hper, and_true, if_false, ite_false,
    false_and, if_true, ite_true]

/-- Witness for C4's amended claim: a one-parameter map
(`database=app`) round-trips through serialization and parsing, in the
iteration order `[database]`. -/
theorem startup_replay_roundtrip_witness :
    readStartupMessage noNetEnv
        (newStartupPacket [strBytes "database"]
          (goMap [(strBytes "database", strBytes "app")])) =
      { result := .params
          ([strBytes "database"].map
            (fun k => (k,
              ((goMap [(strBytes "database", strBytes "app")]) k).getD []))),
        clientOut := [], cancelDial := none, cancelWrite := [] } :=
  startup_replay_roundtrip noNetEnv [strBytes "database"]
    (goMap [(strBytes "database", strBytes "app")]) (by decide) (by decide)

end PgReplicaProxy
